import Mathlib

/-! Contact route (`routes/contact.js`): a shallow embedding.

The Express route `POST /` of `routes/contact.js` is embedded as pure functions
over explicit inputs:

* the process environment (`Env`), read through `process.env`;
* the outside world (`World`): what `fetch` and `transporter.sendMail` answer;
* the two validator.js predicates whose definitions are outside the
  repository (`Validator`): `isEmail` and `normalizeEmail`;
* the request body (`Body`), one JavaScript value per field, arrays included.

Every function returns, next to its value, the list of outbound calls it made
(`Effect`), so that "no request is made" and "exactly one send" are statements
about that list.
-/

set_option autoImplicit false

namespace Contact

/-! ## JavaScript values -/

/-- The JavaScript values `express.json()` and `express.urlencoded` put in a body
field: a missing field (`undefined`), `null`, a boolean, a number (carried as
the text `String(n)` yields, the only way the route looks at it), a string, a
plain object (one whose `String(o)` is `[object Object]`) and an array of such
values. -/
inductive JsVal where
  | undefined
  | null
  | bool (b : Bool)
  | num (text : String)
  | str (s : String)
  | obj
  | arr (xs : List JsVal)

/-- A number as `resp.json()` can produce it: a finite value (the exact value
of the double) or an infinity (`1e999` parses to `Infinity`). -/
inductive JsNum where
  | finite (q : ℚ)
  | posInf
  | negInf
  deriving DecidableEq

/-- Truthiness of a string: `ToBoolean(s)` is false exactly for the empty string. -/
def strTruthy (s : String) : Bool := s.data ≠ []

/-- Truthiness of a number: `ToBoolean(n)` is false exactly for `0` and `-0`. -/
def JsNum.truthy : JsNum → Bool
  | .finite q => q ≠ 0
  | .posInf => true
  | .negInf => true

/-- The number literal `0.3`: the double nearest to three tenths. -/
def threshold : ℚ := 5404319552844595 / 18014398509481984

/-- Evaluates `n >= 0.3`. -/
def JsNum.geThreshold : JsNum → Bool
  | .finite q => threshold ≤ q
  | .posInf => true
  | .negInf => false

/-- Truthiness of an optional environment variable: `undefined` and `''` are falsy. -/
def envTruthy : Option String → Bool
  | none => false
  | some s => strTruthy s

mutual
/-- `String(v)`, the conversion a template literal and a property key apply; an
array is joined with commas. -/
def JsVal.toJsString : JsVal → String
  | .undefined => "undefined"
  | .null => "null"
  | .bool true => "true"
  | .bool false => "false"
  | .num text => text
  | .str s => s
  | .obj => "[object Object]"
  | .arr xs => joinElements xs
termination_by structural v => v
/-- `Array.prototype.join(',')`: `undefined` and `null` elements give the empty
string, the others `String(element)`. -/
def joinElements : List JsVal → String
  | [] => ""
  | x :: rest =>
    (match x with
      | .undefined => ""
      | .null => ""
      | v => v.toJsString) ++ (if rest.isEmpty then "" else ",") ++ joinElements rest
termination_by structural xs => xs
end

/-- The text `join` gives one element: empty for `undefined` and `null`,
`String(element)` otherwise. -/
def elementString : JsVal → String
  | .undefined => ""
  | .null => ""
  | v => v.toJsString

/-! ## `encodeURIComponent` -/

/-- Characters `encodeURIComponent` leaves alone: `A-Z a-z 0-9 - _ . ! ~ * ' ( )`. -/
def uriUnreserved (c : Char) : Bool :=
  c.isAlphanum || [45, 95, 46, 33, 126, 42, 39, 40, 41].contains c.toNat

/-- One upper-case hexadecimal digit. -/
def hexDigit (n : Nat) : Char :=
  if n < 10 then Char.ofNat (48 + n) else Char.ofNat (55 + n)

/-- Percent-encodes one byte as `%XY`. -/
def percentByte (b : UInt8) : List Char :=
  ['%', hexDigit (b.toNat / 16), hexDigit (b.toNat % 16)]

/-- Encodes one character of the argument of `encodeURIComponent`. -/
def encodeURIChar (c : Char) : List Char :=
  if uriUnreserved c then [c] else (String.utf8EncodeChar c).flatMap percentByte

/-- Models `encodeURIComponent(s)` for a well-formed string. -/
def encodeURIComponent (s : String) : String :=
  ⟨s.data.flatMap encodeURIChar⟩

/-! ## Department routing -/

/-- The value a property read `DEPARTMENT_EMAILS[key]` yields: nothing, an own
string property, or a property the object literal inherits from
`Object.prototype` (a function or object, named by its key). -/
inductive PropVal where
  | undefined
  | str (s : String)
  | inherited (key : String)
  deriving DecidableEq

/-- Truthiness of a property value: `undefined` and `''` are falsy, functions and
objects are truthy. -/
def PropVal.truthy : PropVal → Bool
  | .undefined => false
  | .str s => strTruthy s
  | .inherited _ => true

/-- The own properties of the object literal `DEPARTMENT_EMAILS`. -/
def DEPARTMENT_EMAILS : List (String × String) :=
  [("technical", "it@jayprasad.com.np"),
   ("admin", "admin@jayprasad.com.np"),
   ("general", "contact@jayprasad.com.np"),
   ("info", "info@jayprasad.com.np")]

/-- The property names every object literal inherits from `Object.prototype`. -/
def objectPrototypeKeys : List String :=
  ["constructor", "hasOwnProperty", "isPrototypeOf", "propertyIsEnumerable",
   "toLocaleString", "toString", "valueOf", "__proto__",
   "__defineGetter__", "__defineSetter__", "__lookupGetter__", "__lookupSetter__"]

/-- The property read `DEPARTMENT_EMAILS[key]`: own properties first, then the
prototype chain. -/
def getProp (key : String) : PropVal :=
  match DEPARTMENT_EMAILS.lookup key with
  | some addr => .str addr
  | none => if objectPrototypeKeys.contains key then .inherited key else .undefined

/-- The expression `DEPARTMENT_EMAILS[department] || DEPARTMENT_EMAILS.general`. -/
def routeTo (department : JsVal) : PropVal :=
  let v := getProp department.toJsString
  if v.truthy then v else getProp "general"

/-! ## Environment and outside world -/

/-- The environment variables `routes/contact.js` reads in the request path. -/
structure Env where
  RECAPTCHA_SECRET : Option String
  SMTP_FROM : Option String

/-- The provider answer after `resp.json()`: `{success: bool, score?: number}`. -/
structure CaptchaData where
  success : Bool
  score : Option JsNum

/-- What `await fetch(...)` followed by `await resp.json()` does: it throws
(network failure, unparsable body) or yields the parsed answer. -/
inductive FetchOutcome where
  | threw (err : String)
  | json (data : CaptchaData)

/-- The object handed to `transporter.sendMail` (`from_` and `to_` stand for the
keys `from` and `to`). -/
structure MailOptions where
  from_ : String
  to_ : PropVal
  replyTo : JsVal
  subject : String
  text : String
  html : String

/-- What `await transporter.sendMail(mailOptions)` does: it throws or yields an
`info` object with a `messageId`. -/
inductive SendOutcome where
  | threw (err : String)
  | sent (messageId : String)

/-- Outbound calls, in the order they are made. -/
inductive Effect where
  | fetch (url : String) (body : String)
  | sendMail (opts : MailOptions)

/-- The outside world: the answers of the verification provider and of the mail
transport to each call. -/
structure World where
  fetch : String → String → FetchOutcome
  sendMail : MailOptions → SendOutcome

/-! ## `verifyCaptcha` -/

/-- The URL `verifyCaptcha` posts to. -/
def siteverifyUrl : String := "https://www.google.com/recaptcha/api/siteverify"

/-- The form body `verifyCaptcha` posts:
`secret=${encodeURIComponent(SECRET)}&response=${encodeURIComponent(token)}`. -/
def captchaRequestBody (secret : String) (token : JsVal) : String :=
  "secret=" ++ encodeURIComponent secret ++ "&response=" ++ encodeURIComponent token.toJsString

/-- The return expression of `verifyCaptcha`:
`data.success && (data.score ? data.score >= 0.3 : true)`. -/
def captchaDecision (data : CaptchaData) : Bool :=
  data.success &&
    (match data.score with
     | some s => if s.truthy then s.geThreshold else true
     | none => true)

/-- Embeds `async function verifyCaptcha(token)`: the value it resolves to (or the
exception it rejects with) and the outbound calls it made. -/
def verifyCaptcha (env : Env) (w : World) (token : JsVal) : Except String Bool × List Effect :=
  if !envTruthy env.RECAPTCHA_SECRET then (.ok true, [])
  else
    let body := captchaRequestBody (env.RECAPTCHA_SECRET.getD "") token
    match w.fetch siteverifyUrl body with
    | .threw err => (.error err, [.fetch siteverifyUrl body])
    | .json data => (.ok (captchaDecision data), [.fetch siteverifyUrl body])

/-! ## The validation chains (express-validator over validator.js) -/

/-- The two validator.js functions applied to `email`; their definitions are
outside the repository, so every statement below holds for any such pair. -/
structure Validator where
  isEmail : String → Bool
  normalizeEmail : String → JsVal

/-- The fields of `req.body` the route reads. -/
structure Body where
  name : JsVal
  email : JsVal
  department : JsVal
  subject : JsVal
  message : JsVal
  captchaToken : JsVal

/-- One entry of `errors.array()`: the field it is about and the offending value. -/
structure ValidationError where
  path : String
  value : JsVal
  msg : String

/-- The string a standard validator or sanitizer is applied to: `undefined` and
`null` become the empty string, everything else `String(value)`. -/
def fieldToString : JsVal → String
  | .undefined => ""
  | .null => ""
  | v => v.toJsString

/-- The values a standard validator or sanitizer is applied to: each element of
an array (none for the empty array), otherwise the value itself. -/
def elements : JsVal → List JsVal
  | .arr xs => xs
  | v => [v]

/-- A standard sanitizer on a field: an array stays an array, each element
replaced by the sanitized string of that element. -/
def sanitize (f : String → JsVal) : JsVal → JsVal
  | .arr xs => .arr (xs.map (fun e => f (fieldToString e)))
  | v => f (fieldToString v)

/-- The items of a validation chain, in the order they are written. -/
inductive ChainItem where
  | validator (p : String → Bool)
  | custom (p : JsVal → Bool)
  | sanitizer (f : String → JsVal)
  | optional

/-- The error a failing validator records. -/
def invalidValue (path : String) (v : JsVal) : ValidationError :=
  ⟨path, v, "Invalid value"⟩

/-- Runs a chain on a field: each item sees the value the items before it left.
A standard validator is applied to the value, or to each element when the
value is an array, and records one error per failing application; a custom
validator is applied to the whole value; the chain goes on after an error;
`optional()` skips the rest of the chain when the field is `undefined`.
Returns the errors and the value left in `req.body`. -/
def runChain (path : String) : List ChainItem → JsVal → List ValidationError × JsVal
  | [], v => ([], v)
  | .validator p :: rest, v =>
      let r := runChain path rest v
      ((((elements v).filter (fun e => !p (fieldToString e))).map (invalidValue path)) ++ r.1,
        r.2)
  | .custom p :: rest, v =>
      let r := runChain path rest v
      ((if p v then [] else [invalidValue path v]) ++ r.1, r.2)
  | .sanitizer f :: rest, v => runChain path rest (sanitize f v)
  | .optional :: rest, v =>
      match v with
      | .undefined => ([], v)
      | _ => runChain path rest v

/-- The validator `isLength` with only `min` given: at least `min` characters. -/
def isLength (min : Nat) (s : String) : Bool := decide (min ≤ s.length)

/-- The validator `isIn(values)`. -/
def isIn (values : List String) (s : String) : Bool := values.contains s

/-- The validator `isString()`: `typeof value === 'string'`. -/
def isString : JsVal → Bool
  | .str _ => true
  | _ => false

/-- The characters the regular expression class `\s` matches. -/
def isJsWhitespace (c : Char) : Bool :=
  let n := c.toNat
  (9 ≤ n && n ≤ 13) || n = 32 || n = 160 || n = 5760 || (8192 ≤ n && n ≤ 8202) ||
    n = 8232 || n = 8233 || n = 8239 || n = 8287 || n = 12288 || n = 65279

/-- The sanitizer `trim()`: whitespace removed from both ends. -/
def trim (s : String) : String :=
  ⟨((s.data.dropWhile isJsWhitespace).reverse.dropWhile isJsWhitespace).reverse⟩

/-- The replacement `escape()` makes for one character. -/
def escapeChar (c : Char) : List Char :=
  if c = '&' then "&amp;".data
  else if c = '"' then "&quot;".data
  else if c = Char.ofNat 39 then "&#x27;".data
  else if c = '<' then "&lt;".data
  else if c = '>' then "&gt;".data
  else if c = '/' then "&#x2F;".data
  else if c = Char.ofNat 92 then "&#x5C;".data
  else if c = Char.ofNat 96 then "&#96;".data
  else [c]

/-- The sanitizer `escape()`: `& " ' < > / \` and the backtick become HTML entities. -/
def escape (s : String) : String := ⟨s.data.flatMap escapeChar⟩

/-- The values `isIn` is given for `department`. -/
def departmentValues : List String := ["technical", "admin", "general", "info"]

/-- Chain `body('name').isLength({ min: 1 }).trim().escape()`, also used for
`subject` and `message`. -/
def textChain : List ChainItem :=
  [.validator (isLength 1), .sanitizer (fun s => .str (trim s)), .sanitizer (fun s => .str (escape s))]

/-- Chain `body('email').isEmail().normalizeEmail()`. -/
def emailChain (lib : Validator) : List ChainItem :=
  [.validator lib.isEmail, .sanitizer lib.normalizeEmail]

/-- Chain `body('department').isIn(['technical', 'admin', 'general', 'info'])`. -/
def departmentChain : List ChainItem := [.validator (isIn departmentValues)]

/-- Chain `body('captchaToken').optional().isString()`. -/
def captchaTokenChain : List ChainItem := [.optional, .custom isString]

/-- The array of `validationResult(req)` after the six chains ran, in the order
of the chains. -/
def validationErrors (lib : Validator) (b : Body) : List ValidationError :=
  (runChain "name" textChain b.name).1 ++
  (runChain "email" (emailChain lib) b.email).1 ++
  (runChain "department" departmentChain b.department).1 ++
  (runChain "subject" textChain b.subject).1 ++
  (runChain "message" textChain b.message).1 ++
  (runChain "captchaToken" captchaTokenChain b.captchaToken).1

/-- The body `req.body` holds after the six chains ran. -/
def sanitizedBody (lib : Validator) (b : Body) : Body where
  name := (runChain "name" textChain b.name).2
  email := (runChain "email" (emailChain lib) b.email).2
  department := (runChain "department" departmentChain b.department).2
  subject := (runChain "subject" textChain b.subject).2
  message := (runChain "message" textChain b.message).2
  captchaToken := (runChain "captchaToken" captchaTokenChain b.captchaToken).2

/-! ## Composing the mail -/

/-- The `from` header: the display name and `SMTP_FROM || 'no-reply@jayprasad.com.np'`. -/
def fromHeader (env : Env) : String :=
  "\"Website Contact\" <" ++
    (if envTruthy env.SMTP_FROM then env.SMTP_FROM.getD "" else "no-reply@jayprasad.com.np") ++ ">"

/-- The call `message.replace(/\n/g, '<br/>')` on a string. -/
def replaceNewlines (m : String) : String :=
  ⟨m.data.flatMap (fun c => if c = '\n' then "<br/>".data else [c])⟩

/-- The template literal of `subject`. -/
def subjectLine (subject name : String) : String :=
  "[Contact Form] " ++ subject ++ " â€” " ++ name

/-- The template literal of `text`. -/
def textBody (department name email message : String) : String :=
  "Department: " ++ department ++ "\nFrom: " ++ name ++ " <" ++ email ++ ">\n\n" ++ message

/-- The part of the `html` template literal before the message paragraph. -/
def htmlHead (department name email subject : String) : String :=
  "\n          <p><strong>Department:</strong> " ++ department ++ "</p>" ++
  "\n          <p><strong>From:</strong> " ++ name ++ " &lt;" ++ email ++ "&gt;</p>" ++
  "\n          <p><strong>Subject:</strong> " ++ subject ++ "</p>" ++
  "\n          <hr/>" ++
  "\n          "

/-- The message paragraph of the `html` template literal. -/
def htmlParagraph (message : String) : String :=
  "<p>" ++ replaceNewlines message ++ "</p>"

/-- The template literal of `html`. -/
def htmlBody (department name email subject message : String) : String :=
  htmlHead department name email subject ++ htmlParagraph message ++ "\n        "

/-- Builds `mailOptions` from the destructured body. `message.replace` exists only
on a string: for any other `message` the expression throws a `TypeError`. -/
def composeMail (env : Env) (b : Body) : Except String MailOptions :=
  match b.message with
  | .str m =>
    .ok {
      from_ := fromHeader env
      to_ := routeTo b.department
      replyTo := b.email
      subject := subjectLine b.subject.toJsString b.name.toJsString
      text := textBody b.department.toJsString b.name.toJsString b.email.toJsString m
      html := htmlBody b.department.toJsString b.name.toJsString b.email.toJsString
                b.subject.toJsString m }
  | _ => .error "TypeError: message.replace is not a function"

/-! ## The request handler -/

/-- The JSON bodies the route answers with. -/
inductive ResBody where
  | errors (es : List ValidationError)
  | error (msg : String)
  | ok (messageId : String)
  | tooManyRequests

/-- An HTTP response: status and body. -/
structure Response where
  status : Nat
  body : ResBody

/-- The answer of the `catch` block, the same for every exception. -/
def internalError : Response := ⟨500, .error "Unable to send message"⟩

/-- The `async (req, res)` handler, given the validation errors and the body the
chains left: the response and the outbound calls made, in order. The
`console.error` of the `catch` block writes to the server log only and is left
out. -/
def handler (env : Env) (w : World) (errors : List ValidationError) (b : Body) :
    Response × List Effect :=
  if !errors.isEmpty then (⟨400, .errors errors⟩, [])
  else
    match verifyCaptcha env w b.captchaToken with
    | (.error _, fx) => (internalError, fx)
    | (.ok false, fx) => (⟨400, .error "Captcha verification failed"⟩, fx)
    | (.ok true, fx) =>
      match composeMail env b with
      | .error _ => (internalError, fx)
      | .ok mailOptions =>
        match w.sendMail mailOptions with
        | .threw _ => (internalError, fx ++ [.sendMail mailOptions])
        | .sent messageId => (⟨200, .ok messageId⟩, fx ++ [.sendMail mailOptions])

/-- The route behind the limiter: the validation chains, then the handler. -/
def route (lib : Validator) (env : Env) (w : World) (b : Body) : Response × List Effect :=
  handler env w (validationErrors lib b) (sanitizedBody lib b)

/-! ## The rate limiter and the mounted route -/

/-- Modelled from the spec: the rate-limit counter of one client, "(request
count, window start time)". The limiter is express-rate-limit, whose code is
outside the repository. -/
structure Counter where
  count : Nat
  windowStart : Nat
  deriving DecidableEq

/-- Modelled from the spec: the counter table, "mapping from client identifier to
(request count, window start time)". -/
abbrev Store := String → Option Counter

/-- The option `windowMs: 60 * 1000` of `limiter`. -/
def windowMs : Nat := 60 * 1000

/-- The option `max: 10` of `limiter`. -/
def max : Nat := 10

/-- Modelled from the spec: the counter of a client after one more request at
time `now` (milliseconds). A counter "expires/reset after a fixed window": a
client without a counter, or whose window has run out, starts a new window with
this request. -/
def bump (k : Option Counter) (now : Nat) : Counter :=
  match k with
  | some c => if c.windowStart + windowMs ≤ now then ⟨1, now⟩ else ⟨c.count + 1, c.windowStart⟩
  | none => ⟨1, now⟩

/-- Modelled from the spec: the middleware `limiter`, "given a client identifier
and the current time, returns allow/deny", with "max requests per window (10)":
the request is counted and allowed while the count does not exceed `max`. -/
def limiter (store : Store) (client : String) (now : Nat) : Store × Bool :=
  let c := bump (store client) now
  (fun k => if k = client then some c else store k, decide (c.count ≤ max))

/-- A request as the mounted route sees it: who sent it, when, and its body. -/
structure Request where
  client : String
  time : Nat
  body : Body

/-- The answer of the limiter on deny. -/
def tooMany : Response × List Effect := (⟨429, .tooManyRequests⟩, [])

/-- The stack `router.post('/', limiter, [...], handler)`: the limiter first; on
deny nothing else runs. -/
def post (lib : Validator) (env : Env) (w : World) (store : Store) (r : Request) :
    Store × (Response × List Effect) :=
  let d := limiter store r.client r.time
  if d.2 then (d.1, route lib env w r.body) else (d.1, tooMany)

/-- Serves requests one after the other, from the given counter table: the
response and outbound calls of each. -/
def serve (lib : Validator) (env : Env) (w : World) :
    Store → List Request → List (Response × List Effect)
  | _, [] => []
  | s, r :: rs => (post lib env w s r).2 :: serve lib env w (post lib env w s r).1 rs

/-- The answers, among `outs`, to the requests of `rs` that `client` sent. -/
def answersTo (client : String) (rs : List Request) (outs : List (Response × List Effect)) :
    List (Response × List Effect) :=
  ((rs.zip outs).filter (fun p => decide (p.1.client = client))).map Prod.snd

/-- The requests of `rs` that `client` sent. -/
def requestsOf (client : String) (rs : List Request) : List Request :=
  rs.filter (fun r => decide (r.client = client))

/-! ## Counting occurrences -/

/-- The number of positions of a text at which `pat` occurs. -/
def occurrences (pat : List Char) : List Char → Nat
  | [] => if pat = [] then 1 else 0
  | c :: cs => (if pat.isPrefixOf (c :: cs) then 1 else 0) + occurrences pat cs

/-- The text `m` cut at every newline and joined again with `<br/>`: what
"every newline replaced by a line break" says, written without `replace`. -/
def joinLines (m : String) : String :=
  ⟨"<br/>".data.intercalate (m.data.splitOn (Char.ofNat 10))⟩

/-! ## Sample inputs -/

/-- A stand-in for validator.js that accepts one address and leaves it as it is. -/
def sampleValidator : Validator := ⟨fun s => s == "user@example.com", fun s => .str s⟩

/-- A world whose provider approves without a score and whose transport delivers. -/
def sampleWorld : World := ⟨fun _ _ => .json ⟨true, none⟩, fun _ => .sent "<1@example.com>"⟩

/-- A world whose provider answers `{success: true, score: 0}`. -/
def scoreZeroWorld : World :=
  ⟨fun _ _ => .json ⟨true, some (.finite 0)⟩, fun _ => .sent "<1@example.com>"⟩

/-- A world whose provider call and whose transport both throw. -/
def failingWorld : World := ⟨fun _ _ => .threw "ECONNREFUSED", fun _ => .threw "ETIMEDOUT"⟩

/-- A well-formed submission to the technical department. -/
def sampleBody : Body :=
  ⟨.str "Asha", .str "user@example.com", .str "technical", .str "Hello",
   .str "line one\nline two", .undefined⟩

/-- A submission whose name, subject and message are whitespace only. -/
def blankBody : Body :=
  ⟨.str " ", .str "user@example.com", .str "general", .str "\t", .str " \n ", .undefined⟩

/-- The sample submission with an empty array as department. -/
def emptyDepartmentBody : Body :=
  ⟨.str "Asha", .str "user@example.com", .arr [], .str "Hello",
   .str "line one\nline two", .undefined⟩

/-- The sample submission with two departments, as a repeated form field or a
JSON array gives them. -/
def twoDepartmentsBody : Body :=
  ⟨.str "Asha", .str "user@example.com", .arr [.str "technical", .str "admin"], .str "Hello",
   .str "line one\nline two", .undefined⟩

/-- The sample submission with its message inside an array. -/
def arrayMessageBody : Body :=
  ⟨.str "Asha", .str "user@example.com", .str "technical", .str "Hello",
   .arr [.str "hi"], .undefined⟩

/-- Eleven requests of one client, one second apart. -/
def burst : List Request :=
  (List.range 11).map (fun i => ⟨"10.0.0.1", 1000 * i, sampleBody⟩)

/-- The eleven requests of `burst` with a request of another client in between. -/
def sampleRequests : List Request :=
  burst.take 6 ++ [⟨"10.0.0.2", 5500, blankBody⟩] ++ burst.drop 6

/-! ## Captcha verification -/

/-- What `captchaDecision` computes: the answer passes exactly when `success` is
true and the score is absent, zero, or at least the threshold. -/
theorem captchaDecision_iff (data : CaptchaData) :
    captchaDecision data = true ↔
      data.success = true ∧
        ∀ s, data.score = some s → s = .finite 0 ∨ s.geThreshold = true := by
  obtain ⟨success, score⟩ := data
  cases success <;> cases score with
  | none => simp [captchaDecision]
  | some s =>
    cases s with
    | finite q =>
      by_cases hq : q = 0 <;> simp [captchaDecision, JsNum.truthy, hq]
    | posInf => simp [captchaDecision, JsNum.truthy, JsNum.geThreshold]
    | negInf => simp [captchaDecision, JsNum.truthy, JsNum.geThreshold]

/-- C1, at the input where the code leaves the claim: with a secret configured and
the provider answering `{success: true, score: 0}`, `verifyCaptcha` resolves to
`true` for every token, although the score `0` is below `0.3`; a well-formed
submission is then mailed and answered with status 200. -/
theorem verifyCaptcha_score_zero_passes (token : JsVal) :
    (verifyCaptcha ⟨some "secret", none⟩ scoreZeroWorld token).1 = .ok true ∧
      JsNum.geThreshold (.finite 0) = false ∧
      (route sampleValidator ⟨some "secret", none⟩ scoreZeroWorld sampleBody).1 =
        ⟨200, .ok "<1@example.com>"⟩ := by
  refine ⟨by simp [verifyCaptcha, envTruthy, strTruthy, scoreZeroWorld, captchaDecision,
    JsNum.truthy], ?_, rfl⟩
  simp [JsNum.geThreshold, threshold]

/-- C6: when `RECAPTCHA_SECRET` is absent or empty, `verifyCaptcha` resolves to
`true` for every token, the absent one included, and makes no outbound call. -/
theorem verifyCaptcha_bypass_without_secret (env : Env) (w : World) (token : JsVal)
    (h : env.RECAPTCHA_SECRET = none ∨ env.RECAPTCHA_SECRET = some "") :
    verifyCaptcha env w token = (.ok true, []) := by
  rcases h with h | h <;> simp [verifyCaptcha, h, envTruthy, strTruthy]

/-- Witness of `verifyCaptcha_bypass_without_secret`: no secret, absent token, and
a provider that would throw if it were called. -/
theorem verifyCaptcha_bypass_without_secret_witness :
    ((⟨none, none⟩ : Env).RECAPTCHA_SECRET = none ∨
        (⟨none, none⟩ : Env).RECAPTCHA_SECRET = some "") ∧
      verifyCaptcha ⟨none, none⟩ failingWorld .undefined = (.ok true, []) :=
  ⟨Or.inl rfl, verifyCaptcha_bypass_without_secret ⟨none, none⟩ failingWorld .undefined (Or.inl rfl)⟩

/-! ## Department routing -/

/-- A value that names neither an own key nor a property of `Object.prototype` is
routed to the general-department address. -/
theorem routeTo_unmapped (department : JsVal)
    (hown : department.toJsString ∉ departmentValues)
    (hproto : department.toJsString ∉ objectPrototypeKeys) :
    routeTo department = .str "contact@jayprasad.com.np" := by
  have hl : DEPARTMENT_EMAILS.lookup department.toJsString = none := by
    simp only [departmentValues, List.mem_cons, List.mem_singleton, List.not_mem_nil, or_false,
      not_or] at hown
    obtain ⟨h1, h2, h3, h4⟩ := hown
    have b1 : (department.toJsString == "technical") = false := by simpa using h1
    have b2 : (department.toJsString == "admin") = false := by simpa using h2
    have b3 : (department.toJsString == "general") = false := by simpa using h3
    have b4 : (department.toJsString == "info") = false := by simpa using h4
    simp [DEPARTMENT_EMAILS, List.lookup, b1, b2, b3, b4]
  have hg : getProp department.toJsString = .undefined := by
    simp [getProp, hl, hproto]
  rw [routeTo, hg]
  decide

/-- A value that names a property of `Object.prototype` is routed to that
property: the fallback is not taken. -/
theorem routeTo_inherited (department : JsVal)
    (hproto : department.toJsString ∈ objectPrototypeKeys) :
    routeTo department = .inherited department.toJsString := by
  have hl : DEPARTMENT_EMAILS.lookup department.toJsString = none := by
    simp only [objectPrototypeKeys, List.mem_cons, List.mem_singleton, List.not_mem_nil,
      or_false] at hproto
    rcases hproto with h | h | h | h | h | h | h | h | h | h | h | h <;> rw [h] <;> decide
  have hg : getProp department.toJsString = .inherited department.toJsString := by
    simp [getProp, hl, hproto]
  rw [routeTo, hg]
  rfl

/-- C5, the counterexample: for `'constructor'` and `'toString'` the lookup finds
the property inherited from `Object.prototype`, which is truthy, so the
fallback is not taken and the result is not the general-department address. -/
theorem routeTo_inherited_key :
    routeTo (.str "constructor") = .inherited "constructor" ∧
    routeTo (.str "toString") = .inherited "toString" ∧
    routeTo (.str "constructor") ≠ .str "contact@jayprasad.com.np" ∧
    routeTo (.str "toString") ≠ .str "contact@jayprasad.com.np" := by
  decide

/-- C5, as amended: the lookup returns `it@jayprasad.com.np` for `'technical'`,
`admin@jayprasad.com.np` for `'admin'`, `contact@jayprasad.com.np` for
`'general'`, `info@jayprasad.com.np` for `'info'`, and the general-department
address for every other value (a missing one, `''` and `'sales'` among them)
whose string form is not the name of a property inherited from
`Object.prototype`. -/
theorem routeTo_general_unless_inherited :
    routeTo (.str "technical") = .str "it@jayprasad.com.np" ∧
    routeTo (.str "admin") = .str "admin@jayprasad.com.np" ∧
    routeTo (.str "general") = .str "contact@jayprasad.com.np" ∧
    routeTo (.str "info") = .str "info@jayprasad.com.np" ∧
    routeTo .undefined = .str "contact@jayprasad.com.np" ∧
    routeTo (.str "") = .str "contact@jayprasad.com.np" ∧
    routeTo (.str "sales") = .str "contact@jayprasad.com.np" ∧
    (∀ department : JsVal, department.toJsString ∉ departmentValues →
        department.toJsString ∉ objectPrototypeKeys →
        routeTo department = .str "contact@jayprasad.com.np") := by
  refine ⟨by decide, by decide, by decide, by decide, by decide, by decide, by decide, ?_⟩
  exact routeTo_unmapped

/-! ## Validation at the inputs where the code leaves the claims -/

/-- The chain of `email` records no error for an address `isEmail` accepts. -/
theorem email_accepted (lib : Validator) (e : String) (h : lib.isEmail e = true) :
    (runChain "email" (emailChain lib) (.str e)).1 = [] := by
  simp [runChain, emailChain, elements, fieldToString, JsVal.toJsString, h]

/-- C2, at the input where the code leaves the claim: `isLength` runs before
`trim`, so a submission whose name, subject and message are whitespace only
passes validation (with any `isEmail` that accepts its address), and the name,
subject and message the handler then uses are empty. -/
theorem blank_fields_pass_validation (lib : Validator)
    (h : lib.isEmail "user@example.com" = true) :
    validationErrors lib blankBody = [] ∧
      (sanitizedBody lib blankBody).name = .str "" ∧
      (sanitizedBody lib blankBody).subject = .str "" ∧
      (sanitizedBody lib blankBody).message = .str "" := by
  refine ⟨?_, rfl, rfl, rfl⟩
  simp only [validationErrors, blankBody, email_accepted lib _ h]
  rfl

/-- Witness of `blank_fields_pass_validation` with the sample validator. -/
theorem blank_fields_pass_validation_witness :
    sampleValidator.isEmail "user@example.com" = true ∧
      validationErrors sampleValidator blankBody = [] ∧
      (sanitizedBody sampleValidator blankBody).name = .str "" ∧
      (sanitizedBody sampleValidator blankBody).subject = .str "" ∧
      (sanitizedBody sampleValidator blankBody).message = .str "" :=
  ⟨by decide, blank_fields_pass_validation sampleValidator (by decide)⟩

/-- The route when validation passed and no captcha secret is configured: the
mail is composed and sent, with no call to the provider. -/
theorem route_without_secret (lib : Validator) (env : Env) (w : World) (b : Body)
    (hv : validationErrors lib b = [])
    (hs : env.RECAPTCHA_SECRET = none ∨ env.RECAPTCHA_SECRET = some "") :
    route lib env w b =
      match composeMail env (sanitizedBody lib b) with
      | .error _ => (internalError, [])
      | .ok opts =>
        match w.sendMail opts with
        | .threw _ => (internalError, [.sendMail opts])
        | .sent messageId => (⟨200, .ok messageId⟩, [.sendMail opts]) := by
  have hcap : verifyCaptcha env w (sanitizedBody lib b).captchaToken = (.ok true, []) := by
    rcases hs with h | h <;> simp [verifyCaptcha, h, envTruthy, strTruthy]
  simp only [route, handler, hv, hcap, List.isEmpty_nil, Bool.not_true, Bool.false_eq_true,
    if_false, List.nil_append]

/-- C3, at the input where the code leaves the claim: a standard validator is
applied to each element of an array, so for the empty array `isIn` is applied
to nothing. The sample submission with department `[]`, which is none of the
four values, passes validation with no error at all (with any `isEmail` that
accepts its address) and is answered with status 200. -/
theorem empty_array_department_passes_validation (lib : Validator)
    (h : lib.isEmail "user@example.com" = true) :
    (∀ d ∈ departmentValues, emptyDepartmentBody.department ≠ .str d) ∧
      validationErrors lib emptyDepartmentBody = [] ∧
      (route lib ⟨none, none⟩ sampleWorld emptyDepartmentBody).1 =
        ⟨200, .ok "<1@example.com>"⟩ := by
  have hv : validationErrors lib emptyDepartmentBody = [] := by
    simp only [validationErrors, emptyDepartmentBody, email_accepted lib _ h]
    rfl
  refine ⟨fun d _ e => (by cases e), hv, ?_⟩
  rw [route_without_secret lib _ _ _ hv (Or.inl rfl)]
  rfl

/-- Witness of `empty_array_department_passes_validation` with the sample validator. -/
theorem empty_array_department_passes_validation_witness :
    sampleValidator.isEmail "user@example.com" = true ∧
      validationErrors sampleValidator emptyDepartmentBody = [] ∧
      (route sampleValidator ⟨none, none⟩ sampleWorld emptyDepartmentBody).1 =
        ⟨200, .ok "<1@example.com>"⟩ :=
  ⟨by decide, (empty_array_department_passes_validation sampleValidator (by decide)).2⟩

/-- C4, at the input where the code leaves the claim: the sample submission with
department `['technical', 'admin']`, which is none of the four values, passes
validation because each element passes `isIn` (with any `isEmail` that accepts
its address); the lookup key is `'technical,admin'`, for which the lookup finds
nothing, so the fallback is taken: with no captcha secret the mail is sent to
the general-department address and the answer is 200. -/
theorem array_department_takes_fallback (lib : Validator)
    (h : lib.isEmail "user@example.com" = true) :
    (∀ d ∈ departmentValues, twoDepartmentsBody.department ≠ .str d) ∧
      validationErrors lib twoDepartmentsBody = [] ∧
      twoDepartmentsBody.department.toJsString = "technical,admin" ∧
      getProp twoDepartmentsBody.department.toJsString = .undefined ∧
      ∃ opts, route lib ⟨none, none⟩ sampleWorld twoDepartmentsBody =
          (⟨200, .ok "<1@example.com>"⟩, [.sendMail opts]) ∧
        opts.to_ = .str "contact@jayprasad.com.np" := by
  have hv : validationErrors lib twoDepartmentsBody = [] := by
    simp only [validationErrors, twoDepartmentsBody, email_accepted lib _ h]
    rfl
  refine ⟨fun d _ e => (by cases e), hv, rfl, by decide, ?_⟩
  rw [route_without_secret lib _ _ _ hv (Or.inl rfl)]
  exact ⟨_, rfl, rfl⟩

/-- Witness of `array_department_takes_fallback` with the sample validator. -/
theorem array_department_takes_fallback_witness :
    sampleValidator.isEmail "user@example.com" = true ∧
      validationErrors sampleValidator twoDepartmentsBody = [] ∧
      ∃ opts, route sampleValidator ⟨none, none⟩ sampleWorld twoDepartmentsBody =
          (⟨200, .ok "<1@example.com>"⟩, [.sendMail opts]) ∧
        opts.to_ = .str "contact@jayprasad.com.np" :=
  ⟨by decide, (array_department_takes_fallback sampleValidator (by decide)).2.1,
    (array_department_takes_fallback sampleValidator (by decide)).2.2.2.2⟩

/-- C8, at the input where the code leaves the claim: the sample submission to
`'technical'` with its message inside an array passes validation (with any
`isEmail` that accepts its address), the sanitizers leave the message an
array, `message.replace` throws, and with no captcha secret and a transport
that would deliver the answer is 500 and nothing is sent. -/
theorem array_message_is_answered_500 (lib : Validator)
    (h : lib.isEmail "user@example.com" = true) :
    validationErrors lib arrayMessageBody = [] ∧
      arrayMessageBody.department = .str "technical" ∧
      (sanitizedBody lib arrayMessageBody).message = .arr [.str "hi"] ∧
      route lib ⟨none, none⟩ sampleWorld arrayMessageBody =
        (⟨500, .error "Unable to send message"⟩, []) := by
  have hv : validationErrors lib arrayMessageBody = [] := by
    simp only [validationErrors, arrayMessageBody, email_accepted lib _ h]
    rfl
  refine ⟨hv, rfl, rfl, ?_⟩
  rw [route_without_secret lib _ _ _ hv (Or.inl rfl)]
  rfl

/-- Witness of `array_message_is_answered_500` with the sample validator. -/
theorem array_message_is_answered_500_witness :
    sampleValidator.isEmail "user@example.com" = true ∧
      validationErrors sampleValidator arrayMessageBody = [] ∧
      route sampleValidator ⟨none, none⟩ sampleWorld arrayMessageBody =
        (⟨500, .error "Unable to send message"⟩, []) :=
  ⟨by decide, (array_message_is_answered_500 sampleValidator (by decide)).1,
    (array_message_is_answered_500 sampleValidator (by decide)).2.2.2⟩

/-! ## The validation chains, one field at a time -/

/-- A standard sanitizer on a value that is not an array yields the sanitized
string of the value. -/
theorem sanitize_of_not_array (f : String → JsVal) (v : JsVal) (h : ∀ xs, v ≠ .arr xs) :
    sanitize f v = f (fieldToString v) := by
  cases v with
  | arr xs => exact absurd rfl (h xs)
  | _ => rfl

/-- The chain of `name`, `subject` and `message`: one error for each value (the
field, or each element of an array) that has no character; the field is left
trimmed, then escaped. -/
theorem runChain_text (path : String) (v : JsVal) :
    runChain path textChain v =
      (((elements v).filter (fun e => !isLength 1 (fieldToString e))).map (invalidValue path),
       sanitize (fun s => .str (escape s)) (sanitize (fun s => .str (trim s)) v)) := by
  simp [runChain, textChain]

/-- The chain of `name`, `subject` and `message` leaves a string when the field is
not an array. -/
theorem runChain_text_of_not_array (path : String) (v : JsVal) (h : ∀ xs, v ≠ .arr xs) :
    (runChain path textChain v).2 = .str (escape (trim (fieldToString v))) := by
  rw [runChain_text, sanitize_of_not_array _ v h]
  rfl

/-- The chain of `name`, `subject` and `message` leaves an array when the field is
an array. -/
theorem runChain_text_of_array (path : String) (xs : List JsVal) :
    ∃ ys, (runChain path textChain (.arr xs)).2 = .arr ys := by
  rw [runChain_text]
  exact ⟨_, rfl⟩

/-- The chain of `email`. -/
theorem runChain_email (lib : Validator) (v : JsVal) :
    runChain "email" (emailChain lib) v =
      (((elements v).filter (fun e => !lib.isEmail (fieldToString e))).map (invalidValue "email"),
       sanitize lib.normalizeEmail v) := by
  simp [runChain, emailChain]

/-- The chain of `department`. -/
theorem runChain_department (v : JsVal) :
    runChain "department" departmentChain v =
      (((elements v).filter (fun e => !isIn departmentValues (fieldToString e))).map
        (invalidValue "department"), v) := by
  simp [runChain, departmentChain]

/-- The chain of `captchaToken`. -/
theorem runChain_captchaToken (v : JsVal) :
    runChain "captchaToken" captchaTokenChain v =
      (match v with
        | .undefined => []
        | _ => if isString v then [] else [invalidValue "captchaToken" v], v) := by
  cases v <;> simp [runChain, captchaTokenChain, isString]

/-! ## The handler -/

/-- With a non-empty error list the handler answers 400 with that list and makes
no outbound call. -/
theorem route_of_errors (lib : Validator) (env : Env) (w : World) (b : Body)
    (h : validationErrors lib b ≠ []) :
    route lib env w b = (⟨400, .errors (validationErrors lib b)⟩, []) := by
  have he : (validationErrors lib b).isEmpty = false := by
    cases hv : validationErrors lib b with
    | nil => exact absurd hv h
    | cons _ _ => rfl
  simp [route, handler, he]

/-- With an empty error list the handler never answers with an error list. -/
theorem route_of_no_errors (lib : Validator) (env : Env) (w : World) (b : Body)
    (h : validationErrors lib b = []) (es : List ValidationError) :
    (route lib env w b).1 ≠ ⟨400, .errors es⟩ := by
  simp only [route, handler, h, List.isEmpty_nil, Bool.not_true, Bool.false_eq_true, if_false]
  rcases hv : verifyCaptcha env w (sanitizedBody lib b).captchaToken with ⟨r, fx⟩
  rcases r with e | ok
  · simp [internalError]
  · cases ok
    · simp
    · rcases hc : composeMail env (sanitizedBody lib b) with e | opts
      · simp [internalError]
      · rcases hs : w.sendMail opts with e | m <;> simp [internalError, hs]

/-- The function `verifyCaptcha` never calls the mail transport. -/
theorem verifyCaptcha_sends_no_mail (env : Env) (w : World) (token : JsVal) (opts : MailOptions) :
    Effect.sendMail opts ∉ (verifyCaptcha env w token).2 := by
  unfold verifyCaptcha
  split
  · simp
  · dsimp only
    split <;> simp

/-- When the message is not an array its chain leaves a string, so `mailOptions`
can be built. -/
theorem composeMail_of_message (lib : Validator) (env : Env) (b : Body)
    (hm : ∀ xs, b.message ≠ .arr xs) :
    ∃ opts, composeMail env (sanitizedBody lib b) = .ok opts ∧
      opts.to_ = routeTo b.department ∧
      opts.replyTo = (sanitizedBody lib b).email ∧
      opts.text = textBody b.department.toJsString
        (sanitizedBody lib b).name.toJsString
        (sanitizedBody lib b).email.toJsString
        (escape (trim (fieldToString b.message))) ∧
      opts.html = htmlBody b.department.toJsString
        (sanitizedBody lib b).name.toJsString
        (sanitizedBody lib b).email.toJsString
        (sanitizedBody lib b).subject.toJsString
        (escape (trim (fieldToString b.message))) := by
  have hmsg : (sanitizedBody lib b).message = .str (escape (trim (fieldToString b.message))) :=
    runChain_text_of_not_array "message" b.message hm
  have hdep : (sanitizedBody lib b).department = b.department := by
    simp [sanitizedBody, runChain_department]
  simp only [composeMail, hmsg, hdep]
  exact ⟨_, rfl, rfl, rfl, rfl, rfl⟩

/-- When the message is an array no mail is composed. -/
theorem composeMail_of_array_message (lib : Validator) (env : Env) (b : Body)
    (xs : List JsVal) (hm : b.message = .arr xs) (opts : MailOptions) :
    composeMail env (sanitizedBody lib b) ≠ .ok opts := by
  obtain ⟨ys, hy⟩ := runChain_text_of_array "message" xs
  have hmsg : (sanitizedBody lib b).message = .arr ys := by
    simp only [sanitizedBody, hm, hy]
  simp [composeMail, hmsg]

/-- Any mail the route sends is the composed one, and is sent only after validation
passed. -/
theorem route_mail_is_composed (lib : Validator) (env : Env) (w : World) (b : Body)
    (o : MailOptions) (ho : Effect.sendMail o ∈ (route lib env w b).2) :
    validationErrors lib b = [] ∧ composeMail env (sanitizedBody lib b) = .ok o := by
  have hno := verifyCaptcha_sends_no_mail env w (sanitizedBody lib b).captchaToken o
  cases hv : validationErrors lib b with
  | cons e es =>
    rw [route_of_errors lib env w b (by rw [hv]; exact List.cons_ne_nil _ _)] at ho
    simp at ho
  | nil =>
    refine ⟨rfl, ?_⟩
    simp only [route, handler, hv, List.isEmpty_nil, Bool.not_true, Bool.false_eq_true,
      if_false] at ho
    rcases hcap : verifyCaptcha env w (sanitizedBody lib b).captchaToken with ⟨r, fx⟩
    rw [hcap] at ho hno
    rcases r with e | ok
    · exact absurd ho hno
    · cases ok
      · exact absurd ho hno
      · rcases hc : composeMail env (sanitizedBody lib b) with e | opts
        · rw [hc] at ho
          exact absurd ho hno
        · simp only [hc] at ho
          rcases hs : w.sendMail opts with e | mid <;> rw [hs] at ho <;>
            simp only [List.mem_append, List.mem_singleton] at ho <;>
            rcases ho with ho | ho
          · exact absurd ho hno
          · rw [Effect.sendMail.inj ho]
          · exact absurd ho hno
          · rw [Effect.sendMail.inj ho]

/-- C10: for a request that passed validation, when `verifyCaptcha` throws the
handler answers with status 500 and the body `error: 'Unable to send message'`,
and the only outbound calls are those `verifyCaptcha` made, none of them a
send; when the send throws the handler answers the same; the answer does not
depend on the exception. -/
theorem exception_answers_generic_500 (lib : Validator) (env : Env) (w : World) (b : Body)
    (hv : validationErrors lib b = []) :
    (∀ e fx, verifyCaptcha env w (sanitizedBody lib b).captchaToken = (.error e, fx) →
        route lib env w b = (⟨500, .error "Unable to send message"⟩, fx) ∧
        ∀ opts, Effect.sendMail opts ∉ (route lib env w b).2) ∧
    (∀ e fx opts, verifyCaptcha env w (sanitizedBody lib b).captchaToken = (.ok true, fx) →
        composeMail env (sanitizedBody lib b) = .ok opts →
        w.sendMail opts = .threw e →
        (route lib env w b).1 = ⟨500, .error "Unable to send message"⟩) := by
  constructor
  · intro e fx h
    have hr : route lib env w b = (⟨500, .error "Unable to send message"⟩, fx) := by
      simp [route, handler, hv, h, internalError]
    refine ⟨hr, fun opts hmem => ?_⟩
    rw [hr] at hmem
    have hno := verifyCaptcha_sends_no_mail env w (sanitizedBody lib b).captchaToken opts
    rw [h] at hno
    exact hno hmem
  · intro e fx opts hcap hc hs
    simp [route, handler, hv, hcap, hc, hs, internalError]

/-- Witness of `exception_answers_generic_500`: the sample submission, a secret
configured and a provider call that throws. -/
theorem exception_answers_generic_500_witness :
    validationErrors sampleValidator sampleBody = [] ∧
      route sampleValidator ⟨some "secret", none⟩ failingWorld sampleBody =
        (⟨500, .error "Unable to send message"⟩,
          [.fetch siteverifyUrl "secret=secret&response=undefined"]) :=
  ⟨rfl,
    ((exception_answers_generic_500 sampleValidator ⟨some "secret", none⟩ failingWorld sampleBody
      rfl).1 "ECONNREFUSED" _ rfl).1⟩

/-! ## The composed mail and the newlines of the message -/

/-- The per-character replacement `replaceNewlines` makes. -/
theorem replaceNewlines_data (m : String) :
    (replaceNewlines m).data =
      m.data.flatMap (fun c => if c = '\n' then "<br/>".data else [c]) := rfl

/-- Replacing each newline is cutting at the newlines and joining with `<br/>`. -/
theorem flatMap_eq_intercalate_splitOn (l : List Char) :
    l.flatMap (fun c => if c = '\n' then "<br/>".data else [c]) =
      "<br/>".data.intercalate (l.splitOn '\n') := by
  simp only [List.splitOn, List.intercalate]
  induction l with
  | nil => simp
  | cons c cs ih =>
    rw [List.flatMap_cons, List.splitOnP_cons, ih]
    obtain ⟨x, xs, hx⟩ : ∃ x xs, List.splitOnP (· == '\n') cs = x :: xs := by
      cases h : List.splitOnP (· == '\n') cs with
      | nil => exact (List.splitOnP_ne_nil _ cs h).elim
      | cons x xs => exact ⟨x, xs, rfl⟩
    rw [hx]
    by_cases hc : c = '\n'
    · subst hc
      cases xs <;> simp
    · have hb : (c == '\n') = false := by simpa using hc
      cases xs <;> simp [hc, hb]

/-- After `escape` no `<` is left. -/
theorem escape_has_no_lt (s : String) : '<' ∉ (escape s).data := by
  simp only [escape, List.mem_flatMap, not_exists, not_and]
  intro c _ h
  unfold escapeChar at h
  split_ifs at h with h1 h2 h3 h4 h5 h6 h7 h8
  any_goals (revert h; decide)
  simp at h
  exact h4 h.symm

/-- In a text without `<`, the occurrences of `<br/>` after the replacement are the
newlines before it. -/
theorem occurrences_br (l : List Char) (h : '<' ∉ l) :
    occurrences "<br/>".data (l.flatMap (fun c => if c = '\n' then "<br/>".data else [c])) =
      l.count '\n' := by
  induction l with
  | nil => decide
  | cons c cs ih =>
    have hc : c ≠ '<' := fun e => h (e ▸ List.mem_cons_self _ _)
    have hcs : '<' ∉ cs := fun e => h (List.mem_cons_of_mem _ e)
    rw [List.flatMap_cons]
    by_cases hn : c = '\n'
    · subst hn
      simp [occurrences, ih hcs, List.isPrefixOf]
      omega
    · have hb : (c == '<') = false := by simpa using hc
      have hn2 : ('\n' == c) = false := by simpa using fun e => hn e.symm
      simp [occurrences, ih hcs, hn, List.isPrefixOf, hb, List.count_cons, hn2]
      intro e
      exact absurd e.symm hc

/-- No newline is left after the replacement. -/
theorem replaceNewlines_has_no_newline (l : List Char) :
    '\n' ∉ l.flatMap (fun c => if c = '\n' then "<br/>".data else [c]) := by
  simp only [List.mem_flatMap, not_exists, not_and]
  intro c _ h
  split_ifs at h with h1
  · revert h; decide
  · simp at h; exact h1 h.symm

/-- Each newline adds the four characters by which `<br/>` is longer. -/
theorem replaceNewlines_length (l : List Char) :
    (l.flatMap (fun c => if c = '\n' then "<br/>".data else [c])).length =
      l.length + 4 * l.count '\n' := by
  induction l with
  | nil => rfl
  | cons c cs ih =>
    rw [List.flatMap_cons, List.length_append, ih]
    by_cases hn : c = '\n'
    · subst hn; simp; omega
    · have hn2 : ('\n' == c) = false := by simpa using fun e => hn e.symm
      simp [hn, List.count_cons, hn2]; omega


/-- C9: for every submission whose message is not an array (the submissions for
which a mail is composed), with `m` the message the chains leave (trimmed and
escaped), the `text` of the composed mail is a head followed by `m` unchanged,
and the `html` is a head followed by the paragraph `<p>…</p>` whose content is
`m` with every newline replaced by `<br/>` (`m` cut at its newlines and joined
with `<br/>`): no newline is left in it, it holds as many `<br/>` as `m` has
newlines, and it is four characters longer per newline; any mail the handler
sends is this one. -/
theorem mail_bodies_keep_message (lib : Validator) (env : Env) (w : World) (b : Body)
    (hm : ∀ xs, b.message ≠ .arr xs) :
    ∃ m opts, (sanitizedBody lib b).message = .str m ∧
      composeMail env (sanitizedBody lib b) = .ok opts ∧
      (∃ head, opts.text = head ++ m) ∧
      (∃ head, opts.html = head ++ htmlParagraph m ++ "\n        ") ∧
      htmlParagraph m = "<p>" ++ replaceNewlines m ++ "</p>" ∧
      replaceNewlines m = joinLines m ∧
      '\n' ∉ (replaceNewlines m).data ∧
      occurrences "<br/>".data (replaceNewlines m).data = m.data.count '\n' ∧
      (replaceNewlines m).length = m.length + 4 * m.data.count '\n' ∧
      ∀ o, Effect.sendMail o ∈ (route lib env w b).2 → o = opts := by
  obtain ⟨opts, hc, -, -, htext, hhtml⟩ := composeMail_of_message lib env b hm
  refine ⟨escape (trim (fieldToString b.message)), opts, ?_, hc, ?_, ?_, rfl, ?_, ?_, ?_, ?_, ?_⟩
  · exact runChain_text_of_not_array "message" b.message hm
  · exact ⟨_, by rw [htext, textBody]⟩
  · exact ⟨_, by rw [hhtml, htmlBody]⟩
  · apply String.ext
    rw [replaceNewlines_data, flatMap_eq_intercalate_splitOn]
    rfl
  · rw [replaceNewlines_data]
    exact replaceNewlines_has_no_newline _
  · rw [replaceNewlines_data]
    exact occurrences_br _ (escape_has_no_lt _)
  · show (replaceNewlines _).data.length = _
    rw [replaceNewlines_data, replaceNewlines_length]
    rfl
  · intro o ho
    have h := (route_mail_is_composed lib env w b o ho).2
    rw [hc] at h
    exact (Except.ok.inj h).symm

/-- Witness of `mail_bodies_keep_message`: the sample submission, whose message
has one newline. -/
theorem mail_bodies_keep_message_witness :
    (∀ xs, sampleBody.message ≠ .arr xs) ∧
      ∃ m opts, (sanitizedBody sampleValidator sampleBody).message = .str m ∧
        composeMail ⟨none, none⟩ (sanitizedBody sampleValidator sampleBody) = .ok opts ∧
        (∃ head, opts.text = head ++ m) ∧
        (∃ head, opts.html = head ++ htmlParagraph m ++ "\n        ") ∧
        htmlParagraph m = "<p>" ++ replaceNewlines m ++ "</p>" ∧
        replaceNewlines m = joinLines m ∧
        '\n' ∉ (replaceNewlines m).data ∧
        occurrences "<br/>".data (replaceNewlines m).data = m.data.count '\n' ∧
        (replaceNewlines m).length = m.length + 4 * m.data.count '\n' ∧
        ∀ o, Effect.sendMail o ∈
          (route sampleValidator ⟨none, none⟩ sampleWorld sampleBody).2 → o = opts :=
  ⟨fun xs e => (by cases e),
    mail_bodies_keep_message sampleValidator ⟨none, none⟩ sampleWorld sampleBody
      (fun xs e => (by cases e))⟩

/-! ## The rate limiter -/

/-- The counter table after one request: only the counter of its client changes. -/
theorem post_store (lib : Validator) (env : Env) (w : World) (s : Store) (r : Request)
    (k : String) :
    (post lib env w s r).1 k = if k = r.client then some (bump (s r.client) r.time) else s k := by
  simp only [post, limiter]
  split <;> rfl

/-- The answer to one request: the route when the bumped count is within `max`,
the 429 answer otherwise. -/
theorem post_answer (lib : Validator) (env : Env) (w : World) (s : Store) (r : Request) :
    (post lib env w s r).2 =
      if (bump (s r.client) r.time).count ≤ max then route lib env w r.body else tooMany := by
  simp only [post, limiter]
  by_cases h : (bump (s r.client) r.time).count ≤ max <;> simp [h]

/-- The answers to one client, served alone from its own counter. -/
theorem answersTo_serve (lib : Validator) (env : Env) (w : World) (c : String)
    (rs : List Request) (s s' : Store) (h : s c = s' c) :
    answersTo c rs (serve lib env w s rs) = serve lib env w s' (requestsOf c rs) := by
  induction rs generalizing s s' with
  | nil => rfl
  | cons r rs ih =>
    by_cases hc : r.client = c
    · have hp : (post lib env w s r).2 = (post lib env w s' r).2 := by
        rw [post_answer, post_answer, hc, h]
      have hst : (post lib env w s r).1 c = (post lib env w s' r).1 c := by
        rw [post_store, post_store, hc, h]
      simp only [answersTo, requestsOf, serve, List.zip_cons_cons, List.filter_cons, hc,
        decide_True, if_true, List.map_cons, hp]
      exact congrArg _ (ih _ _ hst)
    · have hst : (post lib env w s r).1 c = s' c := by
        have : c ≠ r.client := fun e => hc e.symm
        rw [post_store, if_neg this, h]
      simp only [answersTo, requestsOf, serve, List.zip_cons_cons, List.filter_cons, hc,
        decide_False, Bool.false_eq_true, if_false]
      exact ih _ _ hst

/-- Inside a window that holds `n` requests so far, the next requests of the
client pass while the count stays within `max` and are denied afterwards. -/
theorem serve_in_window (lib : Validator) (env : Env) (w : World) (c : String) (t n : Nat)
    (rs : List Request) (s : Store) (hs : s c = some ⟨n, t⟩)
    (hc : ∀ r ∈ rs, r.client = c) (ht : ∀ r ∈ rs, r.time < t + windowMs) :
    serve lib env w s rs =
      (rs.take (max - n)).map (fun r => route lib env w r.body) ++
        (rs.drop (max - n)).map (fun _ => tooMany) := by
  induction rs generalizing s n with
  | nil => simp [serve]
  | cons r rs ih =>
    have hrc : r.client = c := hc r (List.mem_cons_self _ _)
    have hrt : ¬ (t + windowMs ≤ r.time) := Nat.not_le.2 (ht r (List.mem_cons_self _ _))
    have hb : bump (s r.client) r.time = ⟨n + 1, t⟩ := by
      rw [hrc, hs]; simp [bump, hrt]
    have hst : (post lib env w s r).1 c = some ⟨n + 1, t⟩ := by
      rw [post_store, if_pos hrc.symm, hb]
    have ih' := ih (n + 1) _ hst (fun x hx => hc x (List.mem_cons_of_mem _ hx))
      (fun x hx => ht x (List.mem_cons_of_mem _ hx))
    rw [serve, ih']
    by_cases hn : n + 1 ≤ max
    · have e : max - n = (max - (n + 1)) + 1 := by omega
      have hp : (post lib env w s r).2 = route lib env w r.body := by
        rw [post_answer, hb]; exact if_pos hn
      rw [hp, e]
      simp
    · have e : max - n = 0 := by omega
      have e' : max - (n + 1) = 0 := by omega
      have hp : (post lib env w s r).2 = tooMany := by
        rw [post_answer, hb]; exact if_neg hn
      rw [hp, e, e']
      simp

/-- C7: let a client `c` have no running window when its first request `r1`
arrives, and let it send ten more requests within `windowMs` (60 seconds) of
`r1`, interleaved in any way with the requests of other clients. Then the
first ten requests of `c` pass the limiter and are answered by the route, and
the eleventh is answered 429 with no outbound call (no validation, captcha
call or send takes place); and the answers to any other client are the ones
it gets when the requests of `c` are taken out. -/
theorem eleventh_request_is_denied (lib : Validator) (env : Env) (w : World) (s : Store)
    (c : String) (rs : List Request) (r1 : Request) (rest : List Request)
    (hreq : requestsOf c rs = r1 :: rest)
    (hlen : rest.length = 10)
    (hfresh : ∀ k, s c = some k → k.windowStart + windowMs ≤ r1.time)
    (hwin : ∀ r ∈ rest, r.time < r1.time + windowMs) :
    answersTo c rs (serve lib env w s rs) =
        (r1 :: rest.take 9).map (fun r => route lib env w r.body) ++
          [(⟨429, .tooManyRequests⟩, [])] ∧
      ∀ c', c' ≠ c →
        answersTo c' rs (serve lib env w s rs) =
          answersTo c' (rs.filter (fun r => decide (r.client ≠ c)))
            (serve lib env w s (rs.filter (fun r => decide (r.client ≠ c)))) := by
  constructor
  · rw [answersTo_serve lib env w c rs s s rfl, hreq]
    have hmem : ∀ r ∈ r1 :: rest, r.client = c := by
      intro r hr
      rw [← hreq, requestsOf, List.mem_filter] at hr
      simpa using hr.2
    have h1 : r1.client = c := hmem r1 (List.mem_cons_self _ _)
    have hb : bump (s r1.client) r1.time = ⟨1, r1.time⟩ := by
      rw [h1]
      cases hk : s c with
      | none => rfl
      | some k => simp [bump, hfresh k hk]
    have hst : (post lib env w s r1).1 c = some ⟨1, r1.time⟩ := by
      rw [post_store, if_pos h1.symm, hb]
    have hp : (post lib env w s r1).2 = route lib env w r1.body := by
      rw [post_answer, hb]; exact if_pos (show 1 ≤ Contact.max by decide)
    rw [serve, hp, serve_in_window lib env w c r1.time 1 rest _ hst
      (fun r hr => hmem r (List.mem_cons_of_mem _ hr)) hwin]
    have hl : (rest.drop (max - 1)).length = 1 := by
      rw [List.length_drop, hlen]; decide
    obtain ⟨x, hx⟩ := List.length_eq_one.1 hl
    rw [hx]
    have e9 : Contact.max - 1 = 9 := by decide
    rw [e9]
    simp [tooMany]
  · intro c' hc'
    rw [answersTo_serve lib env w c' rs s s rfl,
      answersTo_serve lib env w c' _ s s rfl]
    congr 1
    simp only [requestsOf, List.filter_filter]
    apply List.filter_congr
    intro r _
    by_cases h : r.client = c'
    · simp [h, hc']
    · simp [h]

/-- Witness of `eleventh_request_is_denied`: eleven requests of `10.0.0.1` one
second apart, a request of `10.0.0.2` among them, an empty counter table. -/
theorem eleventh_request_is_denied_witness :
    requestsOf "10.0.0.1" sampleRequests = burst ∧
      answersTo "10.0.0.1" sampleRequests
          (serve sampleValidator ⟨none, none⟩ sampleWorld (fun _ => none) sampleRequests) =
        (burst.take 10).map (fun r => route sampleValidator ⟨none, none⟩ sampleWorld r.body) ++
          [(⟨429, .tooManyRequests⟩, [])] :=
  ⟨rfl,
    (eleventh_request_is_denied sampleValidator ⟨none, none⟩ sampleWorld (fun _ => none)
      "10.0.0.1" sampleRequests ⟨"10.0.0.1", 0, sampleBody⟩ (burst.drop 1)
      rfl rfl (fun k h => by simp at h) (by decide)).1⟩

/-! ## What validation does guarantee -/

/-- The error list holds an error for every failing application of a rule: for
each value (the field, or each element when the field is an array) that
`isLength`, `isEmail` or `isIn` rejects, and for a `captchaToken` that is
present and not a string, whatever the other fields are; and the handler
answers 400 with that whole list exactly when the list is non-empty. -/
theorem validation_reports_every_failing_value (lib : Validator) (env : Env) (w : World)
    (b : Body) :
    (∀ e ∈ elements b.name, isLength 1 (fieldToString e) = false →
        invalidValue "name" e ∈ validationErrors lib b) ∧
    (∀ e ∈ elements b.email, lib.isEmail (fieldToString e) = false →
        invalidValue "email" e ∈ validationErrors lib b) ∧
    (∀ e ∈ elements b.department, isIn departmentValues (fieldToString e) = false →
        invalidValue "department" e ∈ validationErrors lib b) ∧
    (∀ e ∈ elements b.subject, isLength 1 (fieldToString e) = false →
        invalidValue "subject" e ∈ validationErrors lib b) ∧
    (∀ e ∈ elements b.message, isLength 1 (fieldToString e) = false →
        invalidValue "message" e ∈ validationErrors lib b) ∧
    ((b.captchaToken ≠ .undefined ∧ isString b.captchaToken = false) →
        invalidValue "captchaToken" b.captchaToken ∈ validationErrors lib b) ∧
    ((route lib env w b).1 = ⟨400, .errors (validationErrors lib b)⟩ ↔
        validationErrors lib b ≠ []) := by
  refine ⟨fun e he h => ?_, fun e he h => ?_, fun e he h => ?_, fun e he h => ?_,
    fun e he h => ?_, fun h => ?_, ?_⟩
  · simp only [validationErrors, runChain_text, List.mem_append, List.mem_map, List.mem_filter]
    exact Or.inl (Or.inl (Or.inl (Or.inl (Or.inl ⟨e, ⟨he, by simp [h]⟩, rfl⟩))))
  · simp only [validationErrors, runChain_email, List.mem_append, List.mem_map, List.mem_filter]
    exact Or.inl (Or.inl (Or.inl (Or.inl (Or.inr ⟨e, ⟨he, by simp [h]⟩, rfl⟩))))
  · simp only [validationErrors, runChain_department, List.mem_append, List.mem_map,
      List.mem_filter]
    exact Or.inl (Or.inl (Or.inl (Or.inr ⟨e, ⟨he, by simp [h]⟩, rfl⟩)))
  · simp only [validationErrors, runChain_text, List.mem_append, List.mem_map, List.mem_filter]
    exact Or.inl (Or.inl (Or.inr ⟨e, ⟨he, by simp [h]⟩, rfl⟩))
  · simp only [validationErrors, runChain_text, List.mem_append, List.mem_map, List.mem_filter]
    exact Or.inl (Or.inr ⟨e, ⟨he, by simp [h]⟩, rfl⟩)
  · simp only [validationErrors, runChain_captchaToken, List.mem_append]
    refine Or.inr ?_
    obtain ⟨h1, h2⟩ := h
    cases hc : b.captchaToken <;> simp_all [isString]
  · constructor
    · intro h hnil
      exact route_of_no_errors lib env w b hnil _ h
    · intro h
      rw [route_of_errors lib env w b h]

/-- A department that is missing, or a string other than the four values, is
answered 400 with a non-empty error list and no outbound call. -/
theorem string_department_outside_enum_is_rejected (lib : Validator) (env : Env) (w : World)
    (b : Body)
    (h : b.department = .undefined ∨ ∃ s, b.department = .str s ∧ s ∉ departmentValues) :
    validationErrors lib b ≠ [] ∧
      route lib env w b = (⟨400, .errors (validationErrors lib b)⟩, []) := by
  have hmem : invalidValue "department" b.department ∈ validationErrors lib b := by
    refine (validation_reports_every_failing_value lib env w b).2.2.1 b.department ?_ ?_
    · rcases h with h | ⟨s, h, -⟩ <;> rw [h] <;> simp [elements]
    · rcases h with h | ⟨s, h, hs⟩ <;> rw [h]
      · rfl
      · simpa [isIn, fieldToString, JsVal.toJsString] using hs
  have hne : validationErrors lib b ≠ [] := List.ne_nil_of_mem hmem
  exact ⟨hne, route_of_errors lib env w b hne⟩

/-- A submission that passes validation with department `'technical'` and a
message that is not an array, with no captcha secret configured and a transport
that answers the composed mail with message identifier `m`, makes exactly one
outbound call, the send of that mail, whose `to` is `it@jayprasad.com.np` and
whose `replyTo` is the email the chain of `email` left, and is answered with
status 200 and body `ok` with `m`. -/
theorem technical_submission_is_mailed (lib : Validator) (env : Env) (w : World) (b : Body)
    (m : String)
    (hv : validationErrors lib b = [])
    (hd : b.department = .str "technical")
    (hmsg : ∀ xs, b.message ≠ .arr xs)
    (hs : env.RECAPTCHA_SECRET = none ∨ env.RECAPTCHA_SECRET = some "")
    (hm : ∀ opts, composeMail env (sanitizedBody lib b) = .ok opts → w.sendMail opts = .sent m) :
    ∃ opts, route lib env w b = (⟨200, .ok m⟩, [.sendMail opts]) ∧
      opts.to_ = .str "it@jayprasad.com.np" ∧
      opts.replyTo = (sanitizedBody lib b).email := by
  obtain ⟨opts, hc, hto, hreply, -, -⟩ := composeMail_of_message lib env b hmsg
  refine ⟨opts, ?_, ?_, hreply⟩
  · rw [route_without_secret lib env w b hv hs]
    simp [hc, hm opts hc]
  · rw [hto, hd]; decide


/-- A value `isIn` accepts is neither `undefined` nor `null`, and its string form
is one of the four department values. -/
theorem toJsString_of_isIn (e : JsVal)
    (h : isIn departmentValues (fieldToString e) = true) :
    elementString e = e.toJsString ∧ e.toJsString ∈ departmentValues := by
  have hm : fieldToString e ∈ departmentValues := by simpa [isIn] using h
  cases e with
  | undefined => revert h; decide
  | null => revert h; decide
  | bool b => exact ⟨rfl, hm⟩
  | num t => exact ⟨rfl, hm⟩
  | str s => exact ⟨rfl, hm⟩
  | obj => exact ⟨rfl, hm⟩
  | arr xs => exact ⟨rfl, hm⟩

/-- One step of `joinElements`. -/
theorem joinElements_cons (x : JsVal) (rest : List JsVal) :
    joinElements (x :: rest) =
      elementString x ++ (if rest.isEmpty then "" else ",") ++ joinElements rest := by
  cases x <;> rfl

/-- The string form of an array of two or more elements holds a comma. -/
theorem joinElements_has_comma (x y : JsVal) (rest : List JsVal) :
    ',' ∈ (joinElements (x :: y :: rest)).data := by
  rw [joinElements_cons]
  simp

/-- The department of a request that passes validation never names a property
inherited from `Object.prototype`: it is one of the four values, or an array
whose string form is empty, one of the four values, or a list with commas. -/
theorem validated_department_is_not_inherited (lib : Validator) (b : Body)
    (h : validationErrors lib b = []) :
    b.department.toJsString ∉ objectPrototypeKeys := by
  have hall : ∀ e ∈ elements b.department, isIn departmentValues (fieldToString e) = true := by
    intro e he
    by_contra hc
    have hf : isIn departmentValues (fieldToString e) = false := by simpa using hc
    have := (validation_reports_every_failing_value lib ⟨none, none⟩ sampleWorld b).2.2.1 e he hf
    rw [h] at this
    simp at this
  have enum : ∀ k ∈ departmentValues, k ∉ objectPrototypeKeys := by decide
  have comma : ∀ k ∈ objectPrototypeKeys, ',' ∉ k.data := by decide
  cases hd : b.department with
  | arr xs =>
    rw [hd] at hall
    match xs, hall with
    | [], _ => decide
    | [e], hall =>
      have he := toJsString_of_isIn e (hall e (by simp [elements]))
      have hj : (JsVal.arr [e]).toJsString = e.toJsString := by
        show joinElements [e] = e.toJsString
        rw [joinElements_cons, he.1]
        show (e.toJsString ++ "") ++ "" = e.toJsString
        simp
      rw [hj]
      exact enum _ he.2
    | x :: y :: rest, _ =>
      intro hk
      exact comma _ hk (by rw [JsVal.toJsString]; exact joinElements_has_comma x y rest)
  | undefined => exact enum _ (toJsString_of_isIn _ (hall _ (by simp [hd, elements]))).2
  | null => exact enum _ (toJsString_of_isIn _ (hall _ (by simp [hd, elements]))).2
  | bool v => exact enum _ (toJsString_of_isIn _ (hall _ (by simp [hd, elements]))).2
  | num t => exact enum _ (toJsString_of_isIn _ (hall _ (by simp [hd, elements]))).2
  | str t => exact enum _ (toJsString_of_isIn _ (hall _ (by simp [hd, elements]))).2
  | obj => exact enum _ (toJsString_of_isIn _ (hall _ (by simp [hd, elements]))).2

end Contact
